import Mathlib

/-!
Shallow embedding of the Quartz music player (src/code.py), covering the
playlist store and the playback controller: `_add_paths`, `remove_selected`,
`clear_playlist`, `save_playlist`/`load_playlist`, `stop_song`, `next_song`,
`prev_song`, `_on_seek` and the body of `_update_loop`.

Modelling conventions:
- Durations and positions are rationals (`ℚ`); the Python float literal `0.4`
  is embedded as the exact rational `2/5` and arithmetic is exact.
- The metadata probe `get_length_fallback` is an arbitrary parameter
  `probe : String → ℚ`; `x or 0.0` on its result is the identity (a nonzero
  value is truthy, zero stays zero), so `self.length = get_length_fallback(p)
  or 0.0` is embedded as `length := probe p`.
- The transport (`pygame.mixer.music`) is external: `load` is assumed to
  accept every path, the position feed `get_pos()/1000` enters the refresh
  tick as the parameter `reported`, and the transport calls a function issues
  are part of its result (`Option ℚ` seek offset, `TickEffect`).
- `random.randrange(len)` in the shuffle branch is embedded as `r % len` for
  an arbitrary parameter `r : Nat`, which ranges over exactly the values the
  sampler can produce.
- Python integer arithmetic on indices: `(j - 1) % len` with a positive
  modulus agrees with `Int` `%` (Euclidean mod), and `max(0, v - 1)` on
  naturals is truncated subtraction.
- `prev_song` returns `Option PlayerState`: `none` embeds the uncaught
  `TypeError` raised by `None - 1` when `self.idx` is `None` in the
  repeat-all branch.
- UI-only effects (labels, slider, album art, highlighting) are not part of
  the state; the elapsed value a tick writes to the time label is returned
  as `TickEffect.shown pos`.
-/

inductive RepeatMode where
  | off
  | all
  | one
deriving DecidableEq

structure PlayerState where
  playlist : List String
  idx : Option Nat
  playing : Bool
  paused : Bool
  length : ℚ
  shuffle : Bool
  repeatMode : RepeatMode
  manual_seek_pos : Option ℚ
deriving DecidableEq

/-- Initial state set up in `QuartzPlayer.__init__` (src/code.py lines 114-121). -/
def initState : PlayerState :=
  { playlist := [], idx := none, playing := false, paused := false,
    length := 0, shuffle := false, repeatMode := RepeatMode.off,
    manual_seek_pos := none }

/-- `stop_song` (lines 436-442): stops the transport and clears both flags. -/
def stop_song (st : PlayerState) : PlayerState :=
  { st with playing := false, paused := false }

/-- `_load_track` (lines 370-391): fails on an absent or out-of-range index,
otherwise records the probed duration and succeeds (transport load assumed
to accept the path). -/
def load_track (probe : String → ℚ) (i : Option Nat) (st : PlayerState) :
    PlayerState × Bool :=
  match i with
  | none => (st, false)
  | some j =>
    if j < st.playlist.length then
      ({ st with length := probe (st.playlist.getD j "") }, true)
    else (st, false)

/-- `start_playback` (lines 406-417): no-op on an absent index; on a
successful load starts the transport and sets `playing`, clears `paused`. -/
def start_playback (probe : String → ℚ) (st : PlayerState) : PlayerState :=
  match st.idx with
  | none => st
  | some _ =>
    match load_track probe st.idx st with
    | (st2, true) => { st2 with playing := true, paused := false }
    | (st2, false) => st2

/-- `next_song` (lines 444-460). On overflow past the last index the code
first increments `self.idx` and only then either wraps (repeat all) or calls
`stop_song` and returns, leaving the incremented index in place. -/
def next_song (probe : String → ℚ) (r : Nat) (st : PlayerState) : PlayerState :=
  if st.playlist.isEmpty then st
  else if st.shuffle then
    start_playback probe { st with idx := some (r % st.playlist.length) }
  else
    match st.idx with
    | none => start_playback probe { st with idx := some 0 }
    | some j =>
      if st.playlist.length ≤ j + 1 then
        if st.repeatMode = RepeatMode.all then
          start_playback probe { st with idx := some 0 }
        else stop_song { st with idx := some (j + 1) }
      else start_playback probe { st with idx := some (j + 1) }

/-- `prev_song` (lines 462-466):
`self.idx = (self.idx - 1) % len(self.playlist) if self.repeat == "all"
else max(0, (self.idx or 0) - 1)`. In the repeat-all branch `self.idx`
being `None` raises `TypeError` (embedded as `none`); the other branch
guards `None` (and the falsy index `0`) with `or 0`. -/
def prev_song (probe : String → ℚ) (st : PlayerState) : Option PlayerState :=
  if st.playlist.isEmpty then some st
  else if st.repeatMode = RepeatMode.all then
    match st.idx with
    | none => none
    | some j =>
      some (start_playback probe
        { st with idx := some ((((j : Int) - 1) % (st.playlist.length : Int)).toNat) })
  else
    some (start_playback probe { st with idx := some (st.idx.getD 0 - 1) })

/-- The `for p in paths` loop of `_add_paths` (lines 279-284): appends each
truthy (nonempty) path not already in the growing playlist and tracks the
`added` flag. -/
def addLoop (st : PlayerState) (added : Bool) : List String → PlayerState × Bool
  | [] => (st, added)
  | p :: rest =>
    if p ≠ "" ∧ p ∉ st.playlist then
      addLoop { st with playlist := st.playlist ++ [p] } true rest
    else addLoop st added rest

/-- `_add_paths` (lines 278-286): runs the loop, then sets the index to 0
when something was added and the index was unset. The `added` flag is
returned alongside the state (in the Python source it is a local that the
function computes but does not return). -/
def add_paths (paths : List String) (st : PlayerState) : PlayerState × Bool :=
  match addLoop st false paths with
  | (st2, added) =>
    if added = true ∧ st2.idx = none then ({ st2 with idx := some 0 }, added)
    else (st2, added)

/-- `remove_selected` (lines 288-299) at selection index `i` (the selection
is always a valid index when present; no selection is a no-op, embedded as
the out-of-range guard). -/
def remove_selected (i : Nat) (st : PlayerState) : PlayerState :=
  if i < st.playlist.length then
    let st2 := { st with playlist := st.playlist.eraseIdx i }
    match st.idx with
    | none => st2
    | some j =>
      if j = i then { stop_song st2 with idx := none }
      else if i < j then { st2 with idx := some (j - 1) }
      else st2
  else st

/-- `clear_playlist` (lines 301-305). -/
def clear_playlist (st : PlayerState) : PlayerState :=
  stop_song { st with playlist := [], idx := none }

/-- `save_playlist` (lines 307-313): the JSON file content is the list of
paths (JSON round-trips strings exactly). -/
def save_playlist (st : PlayerState) : List String :=
  st.playlist

/-- `load_playlist` (lines 315-326) on successfully parsed file content
`data`: clears, then re-adds. -/
def load_playlist (data : List String) (st : PlayerState) : PlayerState :=
  (add_paths data (clear_playlist st)).1

/-- `cycle_repeat` (lines 528-534). -/
def cycle_repeat (st : PlayerState) : PlayerState :=
  { st with repeatMode :=
      match st.repeatMode with
      | RepeatMode.off => RepeatMode.all
      | RepeatMode.all => RepeatMode.one
      | RepeatMode.one => RepeatMode.off }

/-- `_on_seek` (lines 469-515) with slider value `val` (0..100). Returns the
new state and the offset passed to the transport `play(start=sec)` call
(`none` when the guard returns early and no transport call is made).
Python truthiness: `x and x > 0` is equivalent to `0 < x`. -/
def on_seek (probe : String → ℚ) (val : ℚ) (st : PlayerState) :
    PlayerState × Option ℚ :=
  if st.playing = false then (st, none)
  else
    match st.idx with
    | none => (st, none)
    | some j =>
      if st.playlist.length ≤ j then (st, none)
      else
        let path := st.playlist.getD j ""
        let len0 := if 0 < st.length then st.length else probe path
        let sec := if 0 < len0 then val / 100 * len0 else val
        let new_len := probe path
        let st2 := if 0 < new_len then { st with length := new_len } else st
        ({ st2 with manual_seek_pos := some sec }, some sec)

/-- What a refresh tick does besides updating the state: nothing (not
playing, or paused), re-issuing `play()` on the same track from offset 0
(repeat one at end-of-track), advancing via `next_song`, or writing the
elapsed value `pos` to the time display. -/
inductive TickEffect where
  | idle
  | replay
  | advanced
  | shown (pos : ℚ)
deriving DecidableEq

/-- One iteration of `_update_loop` (lines 549-577). `reported` is the
transport position `pygame.mixer.music.get_pos() / 1000`; `r` feeds the
shuffle branch of a possible `next_song` call. -/
def update_loop_tick (probe : String → ℚ) (r : Nat) (reported : ℚ)
    (st : PlayerState) : PlayerState × TickEffect :=
  if st.playing = true ∧ st.paused = false then
    let pm := st.manual_seek_pos
    let st1 :=
      match pm with
      | some _ => { st with manual_seek_pos := none }
      | none => st
    let pos0 := pm.getD reported
    let pos := if pos0 < 0 then 0 else pos0
    if st1.length ≠ 0 ∧ st1.length - 2/5 ≤ pos then
      if st1.repeatMode = RepeatMode.one then (st1, TickEffect.replay)
      else (next_song probe r st1, TickEffect.advanced)
    else (st1, TickEffect.shown pos)
  else (st, TickEffect.idle)

/-- The playlist mutations claim C1 quantifies over. -/
inductive PlaylistOp where
  | addOp (paths : List String)
  | removeOp (i : Nat)

def applyOp (st : PlayerState) : PlaylistOp → PlayerState
  | PlaylistOp.addOp paths => (add_paths paths st).1
  | PlaylistOp.removeOp i => remove_selected i st

def runOps (ops : List PlaylistOp) : PlayerState :=
  ops.foldl applyOp initState

/-- The paths the `_add_paths` loop actually appends, given the playlist it
starts from: each nonempty path not already present at the time it is
processed, in input order. -/
def addedList (cur : List String) : List String → List String
  | [] => []
  | p :: rest =>
    if p ≠ "" ∧ p ∉ cur then p :: addedList (cur ++ [p]) rest
    else addedList cur rest

/-- The state reached by adding two tracks, removing the currently selected
one (index becomes absent), and enabling repeat-all: the playlist is
non-empty, the index absent, repeat is all. -/
def prevCrashState : PlayerState :=
  cycle_repeat (remove_selected 0 (add_paths ["a", "b"] initState).1)

/-- A state playing track 0 of a one-track playlist with known duration
100, used to instantiate the seek claims. -/
def seekSt : PlayerState :=
  PlayerState.mk ["a"] (some 0) true false 100 false RepeatMode.off none

/-- The corresponding Paused state: the playing flag still set (the code
represents Paused as playing with the paused flag), paused set. -/
def pausedSeekSt : PlayerState :=
  PlayerState.mk ["a"] (some 0) true true 100 false RepeatMode.off none

/-- The no-dangling-index property of claim C1: the current index, when
present, is a valid index into the playlist. -/
def idxOk (st : PlayerState) : Prop :=
  ∀ j, st.idx = some j → j < st.playlist.length

lemma addLoop_spec : ∀ (ps : List String) (st : PlayerState) (a : Bool),
    addLoop st a ps =
      ({ st with playlist := st.playlist ++ addedList st.playlist ps },
        a || !(addedList st.playlist ps).isEmpty) := by
  intro ps
  induction ps with
  | nil => intro st a; simp [addLoop, addedList]
  | cons p rest ih =>
    intro st a
    by_cases h : p ≠ "" ∧ p ∉ st.playlist
    · simp only [addLoop, addedList, if_pos h]
      rw [ih]
      simp
    · simp only [addLoop, addedList, if_neg h]
      rw [ih]

lemma add_paths_eq (paths : List String) (st : PlayerState) :
    add_paths paths st =
      ({ st with playlist := st.playlist ++ addedList st.playlist paths,
                 idx := if addedList st.playlist paths ≠ [] ∧ st.idx = none
                        then some 0 else st.idx },
       !(addedList st.playlist paths).isEmpty) := by
  unfold add_paths
  rw [addLoop_spec]
  by_cases hA : addedList st.playlist paths = []
  · simp [hA]
  · by_cases hi : st.idx = none
    · simp [hA, hi]
    · simp [hA, hi]

lemma add_paths_playlist (paths : List String) (st : PlayerState) :
    (add_paths paths st).1.playlist = st.playlist ++ addedList st.playlist paths := by
  rw [add_paths_eq]

lemma add_paths_idx (paths : List String) (st : PlayerState) :
    (add_paths paths st).1.idx =
      if addedList st.playlist paths ≠ [] ∧ st.idx = none then some 0
      else st.idx := by
  rw [add_paths_eq]

lemma add_paths_flag (paths : List String) (st : PlayerState) :
    (add_paths paths st).2 = !(addedList st.playlist paths).isEmpty := by
  rw [add_paths_eq]

lemma remove_selected_noop (i : Nat) (st : PlayerState)
    (hi : ¬ i < st.playlist.length) : remove_selected i st = st := by
  unfold remove_selected
  rw [if_neg hi]

lemma remove_playlist (i : Nat) (st : PlayerState) (hi : i < st.playlist.length) :
    (remove_selected i st).playlist = st.playlist.eraseIdx i := by
  unfold remove_selected
  rw [if_pos hi]
  cases st.idx with
  | none => rfl
  | some k =>
    by_cases hk : k = i
    · simp [hk, stop_song]
    · by_cases hik : i < k
      · simp [hk, hik]
      · simp [hk, hik]

lemma remove_idx (i : Nat) (st : PlayerState) (hi : i < st.playlist.length) :
    (remove_selected i st).idx =
      match st.idx with
      | none => none
      | some k => if k = i then none else if i < k then some (k - 1) else some k := by
  unfold remove_selected
  rw [if_pos hi]
  cases st.idx with
  | none => rfl
  | some k =>
    by_cases hk : k = i
    · simp [hk, stop_song]
    · by_cases hik : i < k
      · simp [hk, hik]
      · simp [hk, hik]

lemma idxOk_add (paths : List String) (st : PlayerState) (h : idxOk st) :
    idxOk (add_paths paths st).1 := by
  intro j hj
  rw [add_paths_idx] at hj
  rw [add_paths_playlist, List.length_append]
  by_cases hc : addedList st.playlist paths ≠ [] ∧ st.idx = none
  · rw [if_pos hc] at hj
    have hpos : 0 < (addedList st.playlist paths).length :=
      List.length_pos.mpr hc.1
    simp only [Option.some.injEq] at hj
    omega
  · rw [if_neg hc] at hj
    have := h j hj
    omega

lemma idxOk_remove (i : Nat) (st : PlayerState) (h : idxOk st) :
    idxOk (remove_selected i st) := by
  intro j hj
  by_cases hi : i < st.playlist.length
  · rw [remove_idx i st hi] at hj
    rw [remove_playlist i st hi]
    have hlen : (st.playlist.eraseIdx i).length = st.playlist.length - 1 :=
      List.length_eraseIdx_of_lt hi
    cases hidx : st.idx with
    | none => rw [hidx] at hj; exact absurd hj (by simp)
    | some k =>
      rw [hidx] at hj
      have hk := h k hidx
      by_cases h1 : k = i
      · simp [h1] at hj
      · by_cases h2 : i < k
        · simp [h1, h2] at hj
          omega
        · simp [h1, h2] at hj
          omega
  · rw [remove_selected_noop i st hi] at hj ⊢
    exact h j hj

lemma idxOk_runOps (ops : List PlaylistOp) : idxOk (runOps ops) := by
  have main : ∀ (ops : List PlaylistOp) (st : PlayerState),
      idxOk st → idxOk (ops.foldl applyOp st) := by
    intro ops
    induction ops with
    | nil => intro st h; exact h
    | cons op rest ih =>
      intro st h
      refine ih (applyOp st op) ?_
      cases op with
      | addOp ps => exact idxOk_add ps st h
      | removeOp i => exact idxOk_remove i st h
  refine main ops initState ?_
  intro j hj
  simp [initState] at hj

/-- Claim C1: for every sequence of add and remove operations starting from
the empty playlist with absent index, the current index stays absent or
valid; removing an index strictly below the current one decrements it by
one, and removing the current index makes it absent. -/
theorem C1_current_index_invariant :
    (∀ ops : List PlaylistOp, ∀ j, (runOps ops).idx = some j →
        j < (runOps ops).playlist.length) ∧
    (∀ (st : PlayerState) (i j : Nat), i < st.playlist.length →
        st.idx = some j → i < j → (remove_selected i st).idx = some (j - 1)) ∧
    (∀ (st : PlayerState) (i : Nat), i < st.playlist.length →
        st.idx = some i → (remove_selected i st).idx = none) := by
  refine ⟨fun ops => idxOk_runOps ops, ?_, ?_⟩
  · intro st i j hi hidx hij
    rw [remove_idx i st hi, hidx]
    have hne : ¬ j = i := by omega
    simp [hne, hij]
  · intro st i hi hidx
    rw [remove_idx i st hi, hidx]
    simp

/-- Witness for C1 at concrete inputs. -/
theorem C1_current_index_invariant_witness :
    0 < (runOps [PlaylistOp.addOp ["a"]]).playlist.length ∧
    (remove_selected 1
      (PlayerState.mk ["a", "b", "c"] (some 2) true false 0 false
        RepeatMode.off none)).idx = some 1 ∧
    (remove_selected 0
      (PlayerState.mk ["a", "b"] (some 0) false false 0 false
        RepeatMode.off none)).idx = none :=
  ⟨C1_current_index_invariant.1 [PlaylistOp.addOp ["a"]] 0 (by decide),
   C1_current_index_invariant.2.1 _ 1 2 (by decide) rfl (by decide),
   C1_current_index_invariant.2.2 _ 0 (by decide) rfl⟩

lemma isEmpty_false {α : Type} (l : List α) (h : l ≠ []) :
    ¬ (l.isEmpty = true) := by
  cases l with
  | nil => exact absurd rfl h
  | cons a as => simp

lemma start_playback_valid (probe : String → ℚ) (st : PlayerState) (j : Nat)
    (hj : st.idx = some j) (hlt : j < st.playlist.length) :
    start_playback probe st =
      { st with length := probe (st.playlist.getD j ""),
                playing := true, paused := false } := by
  unfold start_playback load_track
  rw [hj]
  simp [hlt]

lemma next_song_some (probe : String → ℚ) (r : Nat) (st : PlayerState) (j : Nat)
    (hidx : st.idx = some j) (hsh : st.shuffle = false) (hne : st.playlist ≠ []) :
    next_song probe r st =
      if st.playlist.length ≤ j + 1 then
        if st.repeatMode = RepeatMode.all then
          start_playback probe { st with idx := some 0 }
        else stop_song { st with idx := some (j + 1) }
      else start_playback probe { st with idx := some (j + 1) } := by
  unfold next_song
  rw [if_neg (isEmpty_false st.playlist hne), if_neg (by simp [hsh]), hidx]

lemma prev_song_not_all (probe : String → ℚ) (st : PlayerState)
    (hne : st.playlist ≠ []) (hr : st.repeatMode ≠ RepeatMode.all) :
    prev_song probe st =
      some (start_playback probe { st with idx := some (st.idx.getD 0 - 1) }) := by
  unfold prev_song
  rw [if_neg (isEmpty_false st.playlist hne), if_neg hr]

lemma prev_song_all_some (probe : String → ℚ) (st : PlayerState) (j : Nat)
    (hne : st.playlist ≠ []) (hr : st.repeatMode = RepeatMode.all)
    (hidx : st.idx = some j) :
    prev_song probe st =
      some (start_playback probe
        { st with idx := some ((((j : Int) - 1) % (st.playlist.length : Int)).toNat) }) := by
  unfold prev_song
  rw [if_neg (isEmpty_false st.playlist hne), if_pos hr, hidx]

lemma neg_one_emod_toNat (n : Nat) (hn : 0 < n) :
    ((-1 : Int) % (n : Int)).toNat = n - 1 := by
  have h2 : (-1 : Int) % (n : Int) = (n : Int) - 1 := by
    have h3 := Int.add_mul_emod_self_left (a := -1) (b := (n : Int)) (c := 1)
    rw [mul_one] at h3
    rw [← h3, Int.emod_eq_of_lt (by omega) (by omega)]
    omega
  omega

/-- Claim C2: with shuffle off and the current index at the last position of
a non-empty playlist, next under repeat-all wraps to index 0 and keeps
playing; under any other repeat mode it stops playback. -/
theorem C2_next_at_last_index :
    ∀ (probe : String → ℚ) (r : Nat) (st : PlayerState),
      st.playlist ≠ [] → st.shuffle = false →
      st.idx = some (st.playlist.length - 1) →
      (st.repeatMode = RepeatMode.all →
        (next_song probe r st).idx = some 0 ∧
        (next_song probe r st).playing = true ∧
        (next_song probe r st).paused = false) ∧
      (st.repeatMode ≠ RepeatMode.all →
        (next_song probe r st).playing = false ∧
        (next_song probe r st).paused = false) := by
  intro probe r st hne hsh hidx
  have hlen : 0 < st.playlist.length := List.length_pos.mpr hne
  have heval := next_song_some probe r st (st.playlist.length - 1) hidx hsh hne
  have hcond : st.playlist.length ≤ (st.playlist.length - 1) + 1 := by omega
  rw [if_pos hcond] at heval
  constructor
  · intro hrep
    rw [heval, if_pos hrep,
      start_playback_valid probe { st with idx := some 0 } 0 rfl hlen]
    exact ⟨rfl, rfl, rfl⟩
  · intro hrep
    rw [heval, if_neg hrep]
    exact ⟨rfl, rfl⟩

/-- Witness for C2 at a concrete two-track playlist. -/
theorem C2_next_at_last_index_witness :
    (next_song (fun _ => 1) 0
      (PlayerState.mk ["a", "b"] (some 1) true false 0 false
        RepeatMode.all none)).idx = some 0 ∧
    (next_song (fun _ => 1) 0
      (PlayerState.mk ["a", "b"] (some 1) true false 0 false
        RepeatMode.off none)).playing = false :=
  ⟨((C2_next_at_last_index (fun _ => 1) 0 _ (by decide) rfl rfl).1 rfl).1,
   ((C2_next_at_last_index (fun _ => 1) 0 _ (by decide) rfl rfl).2 (by decide)).1⟩

/-- Claim C3: with shuffle off and current index 0 on a non-empty playlist,
prev under a repeat mode other than all stays at index 0 and keeps playing
(it never stops); under repeat-all it wraps to the last index. -/
theorem C3_prev_at_first_index :
    ∀ (probe : String → ℚ) (st : PlayerState),
      st.playlist ≠ [] → st.shuffle = false → st.idx = some 0 →
      (st.repeatMode ≠ RepeatMode.all →
        ∃ st2, prev_song probe st = some st2 ∧ st2.idx = some 0 ∧
          st2.playing = true) ∧
      (st.repeatMode = RepeatMode.all →
        ∃ st2, prev_song probe st = some st2 ∧
          st2.idx = some (st.playlist.length - 1)) := by
  intro probe st hne hsh hidx
  have hlen : 0 < st.playlist.length := List.length_pos.mpr hne
  constructor
  · intro hr
    rw [prev_song_not_all probe st hne hr]
    simp only [hidx, Option.getD_some, Nat.zero_sub]
    rw [start_playback_valid probe { st with idx := some 0 } 0 rfl hlen]
    exact ⟨_, rfl, rfl, rfl⟩
  · intro hr
    rw [prev_song_all_some probe st 0 hne hr hidx]
    have harith : ((((0 : Nat) : Int) - 1) % (st.playlist.length : Int)).toNat
        = st.playlist.length - 1 := by
      have h0 : (((0 : Nat) : Int) - 1) = -1 := by norm_num
      rw [h0]
      exact neg_one_emod_toNat st.playlist.length hlen
    rw [harith, start_playback_valid probe
      { st with idx := some (st.playlist.length - 1) } (st.playlist.length - 1)
      rfl (Nat.sub_lt hlen Nat.one_pos)]
    exact ⟨_, rfl, rfl⟩

/-- Witness for C3 at a concrete two-track playlist. -/
theorem C3_prev_at_first_index_witness :
    (∃ st2, prev_song (fun _ => 1)
        (PlayerState.mk ["a", "b"] (some 0) true false 0 false
          RepeatMode.off none) = some st2 ∧
      st2.idx = some 0 ∧ st2.playing = true) ∧
    (∃ st2, prev_song (fun _ => 1)
        (PlayerState.mk ["a", "b"] (some 0) true false 0 false
          RepeatMode.all none) = some st2 ∧
      st2.idx = some 1) :=
  ⟨(C3_prev_at_first_index (fun _ => 1) _ (by decide) rfl rfl).1 (by decide),
   (C3_prev_at_first_index (fun _ => 1) _ (by decide) rfl rfl).2 rfl⟩

/-- Claim C6: removing the entry at the current index stops playback (both
flags false) and makes the current index absent. -/
theorem C6_remove_current_stops :
    ∀ (st : PlayerState) (i : Nat), st.idx = some i → i < st.playlist.length →
      (remove_selected i st).playing = false ∧
      (remove_selected i st).paused = false ∧
      (remove_selected i st).idx = none := by
  intro st i hidx hi
  unfold remove_selected
  rw [if_pos hi, hidx]
  simp [stop_song]

/-- Witness for C6 while track 1 of 2 is playing. -/
theorem C6_remove_current_stops_witness :
    (remove_selected 1
      (PlayerState.mk ["a", "b"] (some 1) true false 0 false
        RepeatMode.off none)).playing = false ∧
    (remove_selected 1
      (PlayerState.mk ["a", "b"] (some 1) true false 0 false
        RepeatMode.off none)).paused = false ∧
    (remove_selected 1
      (PlayerState.mk ["a", "b"] (some 1) true false 0 false
        RepeatMode.off none)).idx = none :=
  C6_remove_current_stops _ 1 rfl (by decide)

/-- Claim C10: prev is not total over reachable states: on a reachable
state with a non-empty playlist, an absent current index and repeat-all,
evaluating prev raises an uncaught TypeError (None minus 1), embedded as
the none result; the repeat-not-all branch on the same state succeeds
because it guards the absent index. -/
theorem C10_prev_crash_on_absent_index :
    ∀ probe : String → ℚ,
      (prevCrashState.playlist ≠ [] ∧ prevCrashState.idx = none ∧
        prevCrashState.repeatMode = RepeatMode.all) ∧
      prev_song probe prevCrashState = none ∧
      (prev_song probe
        { prevCrashState with repeatMode := RepeatMode.off }).isSome = true := by
  intro probe
  exact ⟨⟨by decide, by decide, by decide⟩, rfl, rfl⟩

lemma addedList_all_new :
    ∀ (P acc : List String), P.Nodup → (∀ p ∈ P, p ≠ "") →
      (∀ p ∈ P, p ∉ acc) → addedList acc P = P := by
  intro P
  induction P with
  | nil => intro acc _ _ _; rfl
  | cons p rest ih =>
    intro acc hnd hne hnacc
    have hp : p ≠ "" ∧ p ∉ acc :=
      ⟨hne p (by simp), hnacc p (by simp)⟩
    unfold addedList
    rw [if_pos hp]
    have hrest : addedList (acc ++ [p]) rest = rest := by
      refine ih (acc ++ [p]) (List.Nodup.of_cons hnd) ?_ ?_
      · intro q hq; exact hne q (by simp [hq])
      · intro q hq
        rw [List.mem_append]
        rintro (hqa | hqp)
        · exact hnacc q (by simp [hq]) hqa
        · have : q = p := by simpa using hqp
          subst this
          exact (List.nodup_cons.mp hnd).1 hq
    rw [hrest]

/-- Claim C7 (amended): saving a playlist whose duplicate-free paths are all
non-empty strings and loading the saved file reproduces exactly that
playlist, in order. (The claim as stated fails when the playlist contains
the empty-string path, which the add loop drops as falsy on reload.) -/
theorem C7_save_load_round_trip :
    ∀ st : PlayerState, st.playlist.Nodup → (∀ p ∈ st.playlist, p ≠ "") →
      (load_playlist (save_playlist st) st).playlist = st.playlist := by
  intro st h1 h2
  unfold load_playlist save_playlist
  rw [add_paths_playlist]
  have hclear : (clear_playlist st).playlist = [] := rfl
  rw [hclear, List.nil_append]
  exact addedList_all_new st.playlist [] h1 h2 (by intro p _; simp)

/-- Witness for C7 on a concrete two-track playlist. -/
theorem C7_save_load_round_trip_witness :
    (load_playlist
      (save_playlist
        (PlayerState.mk ["a", "b"] (some 0) true false 0 false
          RepeatMode.off none))
      (PlayerState.mk ["a", "b"] (some 0) true false 0 false
        RepeatMode.off none)).playlist = ["a", "b"] :=
  C7_save_load_round_trip _ (by decide) (by decide)

/-- Claim C7 fails as stated: the playlist containing exactly the
duplicate-free list of paths P = [""] saves to [""] but loads back as the
empty playlist, because the add loop skips falsy (empty-string) paths. -/
theorem C7_counterexample :
    ([""] : List String).Nodup ∧
    (PlayerState.mk [""] none false false 0 false
      RepeatMode.off none).playlist = [""] ∧
    (load_playlist
      (save_playlist
        (PlayerState.mk [""] none false false 0 false RepeatMode.off none))
      (PlayerState.mk [""] none false false 0 false
        RepeatMode.off none)).playlist = [] := by
  decide

/-- Claim C9 (amended): add appends exactly the nonempty input paths not
already present in the playlist at the time each is processed (so
duplicates within the input are dropped too), in input order; the internal
added flag is true iff anything was appended; and when something was
appended while the current index was unset (in particular on an empty
store) the current index becomes 0, otherwise it is unchanged. -/
theorem C9_add_appends_new_paths :
    ∀ (paths : List String) (st : PlayerState),
      (add_paths paths st).1.playlist =
        st.playlist ++ addedList st.playlist paths ∧
      ((add_paths paths st).2 = true ↔ addedList st.playlist paths ≠ []) ∧
      (add_paths paths st).1.idx =
        (if addedList st.playlist paths ≠ [] ∧ st.idx = none then some 0
         else st.idx) := by
  intro paths st
  refine ⟨add_paths_playlist paths st, ?_, add_paths_idx paths st⟩
  rw [add_paths_flag]
  simp

/-- Claim C9 fails as stated: on the input consisting of the single empty
string, which is not present in the empty playlist, nothing is appended
(the loop skips falsy paths), the index stays unset, and the added flag is
false. -/
theorem C9_counterexample :
    ¬ ("" ∈ initState.playlist) ∧
    (add_paths [""] initState).1.playlist = [] ∧
    (add_paths [""] initState).1.idx = none ∧
    (add_paths [""] initState).2 = false := by
  decide

lemma start_playback_manual (probe : String → ℚ) (st : PlayerState) :
    (start_playback probe st).manual_seek_pos = st.manual_seek_pos := by
  unfold start_playback load_track
  cases h : st.idx with
  | none => rfl
  | some j =>
    by_cases hj : j < st.playlist.length
    · simp [hj]
    · simp [hj]

lemma next_song_manual (probe : String → ℚ) (r : Nat) (st : PlayerState) :
    (next_song probe r st).manual_seek_pos = st.manual_seek_pos := by
  unfold next_song
  by_cases he : st.playlist.isEmpty = true
  · rw [if_pos he]
  · rw [if_neg he]
    by_cases hsh : st.shuffle = true
    · rw [if_pos hsh, start_playback_manual]
    · rw [if_neg hsh]
      cases h : st.idx with
      | none =>
        simp only []
        rw [start_playback_manual]
      | some j =>
        simp only []
        by_cases hc : st.playlist.length ≤ j + 1
        · rw [if_pos hc]
          by_cases hrep : st.repeatMode = RepeatMode.all
          · rw [if_pos hrep, start_playback_manual]
          · rw [if_neg hrep]; rfl
        · rw [if_neg hc, start_playback_manual]

lemma on_seek_eval (probe : String → ℚ) (val : ℚ) (st : PlayerState) (j : Nat)
    (hplay : st.playing = true) (hidx : st.idx = some j)
    (hj : j < st.playlist.length) (hlen : 0 < st.length)
    (hprobe : probe (st.playlist.getD j "") = st.length) :
    on_seek probe val st =
      ({ st with manual_seek_pos := some (val / 100 * st.length) },
        some (val / 100 * st.length)) := by
  simp only [on_seek]
  rw [if_neg (show ¬ (st.playing = false) by simp [hplay])]
  rw [hidx]
  simp only []
  rw [if_neg (Nat.not_le.mpr hj), if_pos hlen, if_pos hlen, hprobe, if_pos hlen]

/-- Claim C8 (amended): a seek request while the playing flag is false
(Stopped) is a no-op: no transport call is issued and the whole state is
unchanged. (While Paused — the code keeps the playing flag set and sets the
paused flag — the seek proceeds exactly as in Playing, which refutes the
claim as stated.) -/
theorem C8_seek_noop_when_stopped :
    ∀ (probe : String → ℚ) (val : ℚ) (st : PlayerState),
      st.playing = false → on_seek probe val st = (st, none) := by
  intro probe val st h
  simp only [on_seek]
  rw [if_pos h]

/-- Witness for C8 on the initial (Stopped) state. -/
theorem C8_seek_noop_when_stopped_witness :
    on_seek (fun _ => (1 : ℚ)) 50 initState = (initState, none) :=
  C8_seek_noop_when_stopped (fun _ => (1 : ℚ)) 50 initState rfl

/-- Claim C8 fails as stated: in the Paused state (playing flag true,
paused flag true) a seek is not a no-op — the transport play call is
issued at the target offset and the pending manual position changes. -/
theorem C8_counterexample :
    pausedSeekSt.playing = true ∧ pausedSeekSt.paused = true ∧
    (on_seek (fun _ => (100 : ℚ)) 50 pausedSeekSt).2 = some 50 ∧
    (on_seek (fun _ => (100 : ℚ)) 50 pausedSeekSt).1.manual_seek_pos
      = some 50 ∧
    (on_seek (fun _ => (100 : ℚ)) 50 pausedSeekSt).1 ≠ pausedSeekSt := by
  have he := on_seek_eval (fun _ => (100 : ℚ)) 50 pausedSeekSt 0
    rfl rfl (by decide) (show (0 : ℚ) < 100 by norm_num) rfl
  have h5 : (50 : ℚ) / 100 * pausedSeekSt.length = 50 := by
    norm_num [pausedSeekSt]
  rw [h5] at he
  refine ⟨rfl, rfl, by rw [he], by rw [he], ?_⟩
  rw [he]
  intro h
  have h2 := congrArg PlayerState.manual_seek_pos h
  simp [pausedSeekSt] at h2

/-- Claim C5: while Playing with repeat-one and a known positive duration,
a refresh tick whose observed (manual-or-reported, clamped) position is
within the 0.4s guard of the duration re-issues play of the same track
from offset 0 and leaves the current index unchanged; and with a zero
(unknown) duration no tick ever triggers end-of-track handling (it never
replays or advances). -/
theorem C5_repeat_one_end_of_track :
    (∀ (probe : String → ℚ) (r : Nat) (reported : ℚ) (st : PlayerState),
      st.playing = true → st.paused = false →
      st.repeatMode = RepeatMode.one → 0 < st.length →
      st.length - 2/5 ≤
        (if st.manual_seek_pos.getD reported < 0 then 0
         else st.manual_seek_pos.getD reported) →
      (update_loop_tick probe r reported st).2 = TickEffect.replay ∧
      (update_loop_tick probe r reported st).1.idx = st.idx) ∧
    (∀ (probe : String → ℚ) (r : Nat) (reported : ℚ) (st : PlayerState),
      st.length = 0 →
      (update_loop_tick probe r reported st).2 ≠ TickEffect.replay ∧
      (update_loop_tick probe r reported st).2 ≠ TickEffect.advanced) := by
  constructor
  · intro probe r reported st hplay hpause hrep hlen hpos
    simp only [update_loop_tick]
    rw [if_pos (⟨hplay, hpause⟩ : st.playing = true ∧ st.paused = false)]
    cases hm : st.manual_seek_pos with
    | none =>
      rw [hm] at hpos
      simp only [Option.getD_none] at hpos
      simp only [Option.getD_none]
      rw [if_pos (⟨ne_of_gt hlen, hpos⟩ :
        st.length ≠ 0 ∧ st.length - 2/5 ≤
          (if reported < 0 then 0 else reported))]
      rw [if_pos hrep]
      exact ⟨rfl, rfl⟩
    | some m =>
      rw [hm] at hpos
      simp only [Option.getD_some] at hpos
      simp only [Option.getD_some]
      rw [if_pos (⟨ne_of_gt hlen, hpos⟩ :
        st.length ≠ 0 ∧ st.length - 2/5 ≤ (if m < 0 then 0 else m))]
      rw [if_pos hrep]
      exact ⟨rfl, rfl⟩
  · intro probe r reported st hlen
    simp only [update_loop_tick]
    by_cases hcond : st.playing = true ∧ st.paused = false
    · rw [if_pos hcond]
      cases hm : st.manual_seek_pos with
      | none =>
        rw [if_neg (show ¬ (st.length ≠ 0 ∧ st.length - 2/5 ≤
            (if (Option.getD none reported : ℚ) < 0 then 0
             else Option.getD none reported)) by simp [hlen])]
        exact ⟨by simp, by simp⟩
      | some m =>
        rw [if_neg (show ¬ (st.length ≠ 0 ∧ st.length - 2/5 ≤
            (if (Option.getD (some m) reported : ℚ) < 0 then 0
             else Option.getD (some m) reported)) by simp [hlen])]
        exact ⟨by simp, by simp⟩
    · rw [if_neg hcond]
      exact ⟨by simp, by simp⟩

/-- Witness for C5: a playing repeat-one state at position 99.8 of a
100-second track replays and keeps index 0; a playing state with zero
(unknown) duration never hits end-of-track. -/
theorem C5_repeat_one_end_of_track_witness :
    ((update_loop_tick (fun _ => (100 : ℚ)) 0 100
        (PlayerState.mk ["a"] (some 0) true false 100 false
          RepeatMode.one none)).2 = TickEffect.replay ∧
      (update_loop_tick (fun _ => (100 : ℚ)) 0 100
        (PlayerState.mk ["a"] (some 0) true false 100 false
          RepeatMode.one none)).1.idx = some 0) ∧
    (update_loop_tick (fun _ => (100 : ℚ)) 0 100
        (PlayerState.mk ["a"] (some 0) true false 0 false
          RepeatMode.one none)).2 ≠ TickEffect.replay :=
  ⟨C5_repeat_one_end_of_track.1 (fun _ => (100 : ℚ)) 0 100 _
      rfl rfl rfl (show (0 : ℚ) < 100 by norm_num)
      (show (100 : ℚ) - 2/5 ≤ (if (100 : ℚ) < 0 then 0 else 100) by
        rw [if_neg (by norm_num : ¬ ((100 : ℚ) < 0))]
        norm_num),
   (C5_repeat_one_end_of_track.2 (fun _ => (100 : ℚ)) 0 100 _ rfl).1⟩

/-- Claim C4 (amended): while Playing (valid index, not paused) with a
known positive duration D matching the probe, a seek to slider value v
(fraction f = v/100) issues the transport play at offset f*D and records
pendingManualPosition = f*D; when f*D lies below the end-of-track guard
(f*D < D - 0.4) the very next refresh tick displays exactly f*D no matter
what position the transport reports; and in every case that tick consumes
the pending manual position (one-shot: it is none afterwards). (As stated
the claim fails when f*D falls within 0.4s of D: that tick triggers
end-of-track handling instead of displaying f*D.) -/
theorem C4_seek_manual_position :
    ∀ (probe : String → ℚ) (val reported : ℚ) (r : Nat) (st : PlayerState)
      (j : Nat),
      st.playing = true → st.paused = false → st.idx = some j →
      j < st.playlist.length → 0 < st.length →
      probe (st.playlist.getD j "") = st.length → 0 ≤ val →
      (on_seek probe val st).1.manual_seek_pos
        = some (val / 100 * st.length) ∧
      (on_seek probe val st).2 = some (val / 100 * st.length) ∧
      (val / 100 * st.length < st.length - 2/5 →
        (update_loop_tick probe r reported (on_seek probe val st).1).2 =
          TickEffect.shown (val / 100 * st.length)) ∧
      (update_loop_tick probe r reported
        (on_seek probe val st).1).1.manual_seek_pos = none := by
  intro probe val reported r st j hplay hpause hidx hj hlen hprobe hval
  have hsek := on_seek_eval probe val st j hplay hidx hj hlen hprobe
  rw [hsek]
  have hsec0 : 0 ≤ val / 100 * st.length :=
    mul_nonneg (div_nonneg hval (by norm_num)) (le_of_lt hlen)
  refine ⟨rfl, rfl, ?_, ?_⟩
  · intro hguard
    simp only [update_loop_tick]
    rw [if_pos (⟨hplay, hpause⟩ : st.playing = true ∧ st.paused = false)]
    simp only [Option.getD_some]
    rw [if_neg (not_lt.mpr hsec0)]
    rw [if_neg (show ¬ (st.length ≠ 0 ∧
        st.length - 2/5 ≤ val / 100 * st.length) from
      fun hc => absurd hc.2 (not_le.mpr hguard))]
  · simp only [update_loop_tick]
    rw [if_pos (⟨hplay, hpause⟩ : st.playing = true ∧ st.paused = false)]
    simp only [Option.getD_some]
    rw [if_neg (not_lt.mpr hsec0)]
    split
    · split
      · rfl
      · rw [next_song_manual]
    · rfl

/-- Witness for C4: seeking to slider value 50 (f = 1/2) of a 100-second
track records 50 seconds and the next tick, fed transport position 77,
displays 50. -/
theorem C4_seek_manual_position_witness :
    (on_seek (fun _ => (100 : ℚ)) 50 seekSt).1.manual_seek_pos
      = some (50 / 100 * 100) ∧
    (update_loop_tick (fun _ => (100 : ℚ)) 0 77
      (on_seek (fun _ => (100 : ℚ)) 50 seekSt).1).2
      = TickEffect.shown (50 / 100 * 100) ∧
    (update_loop_tick (fun _ => (100 : ℚ)) 0 77
      (on_seek (fun _ => (100 : ℚ)) 50 seekSt).1).1.manual_seek_pos
      = none :=
  have h := C4_seek_manual_position (fun _ => (100 : ℚ)) 50 77 0 seekSt 0
    rfl rfl rfl (by decide) (show (0 : ℚ) < 100 by norm_num) rfl
    (show (0 : ℚ) ≤ 50 by norm_num)
  ⟨h.1, h.2.2.1 (by norm_num [seekSt]), h.2.2.2⟩

/-- Claim C4 fails as stated: seeking to the very end (slider 100, f = 1,
f*D = 100 = D) records 100 as pending manual position, but the very next
tick (transport reporting 0) does not display 100 — the position falls in
the end-of-track guard, so the tick advances to the next track instead. -/
theorem C4_counterexample :
    (on_seek (fun _ => (100 : ℚ)) 100 seekSt).1.manual_seek_pos
      = some 100 ∧
    (update_loop_tick (fun _ => (100 : ℚ)) 0 0
      (on_seek (fun _ => (100 : ℚ)) 100 seekSt).1).2
      = TickEffect.advanced ∧
    (update_loop_tick (fun _ => (100 : ℚ)) 0 0
      (on_seek (fun _ => (100 : ℚ)) 100 seekSt).1).2
      ≠ TickEffect.shown 100 := by
  have he := on_seek_eval (fun _ => (100 : ℚ)) 100 seekSt 0
    rfl rfl (by decide) (show (0 : ℚ) < 100 by norm_num) rfl
  have h100 : (100 : ℚ) / 100 * seekSt.length = 100 := by
    norm_num [seekSt]
  rw [h100] at he
  have ht : (update_loop_tick (fun _ => (100 : ℚ)) 0 0
      (on_seek (fun _ => (100 : ℚ)) 100 seekSt).1).2 = TickEffect.advanced := by
    rw [he]
    simp only [update_loop_tick]
    rw [if_pos (⟨rfl, rfl⟩ :
      ({ seekSt with manual_seek_pos := some 100 } : PlayerState).playing = true ∧
        ({ seekSt with manual_seek_pos := some 100 } : PlayerState).paused = false)]
    simp only [Option.getD_some]
    rw [if_neg (by norm_num : ¬ ((100 : ℚ) < 0))]
    rw [if_pos (⟨by norm_num [seekSt], by norm_num [seekSt]⟩ :
      ({ seekSt with manual_seek_pos := none } : PlayerState).length ≠ 0 ∧
        ({ seekSt with manual_seek_pos := none } : PlayerState).length - 2/5
          ≤ (100 : ℚ))]
    rfl
  exact ⟨by rw [he], ht, by rw [ht]; simp⟩
